import Mathlib

/-!
Shallow embedding of the photo-management core of the repository
(`database_manager.py`, `photo_manager.py`) and proofs of the spec claims.

Modelling conventions:
* SQLite tables are lists of row structures; `AUTOINCREMENT` row ids are
  explicit counters carried in the `Database` state.
* Python `float` values (modification times, distances, similarity and
  confidence scores) are modelled as exact rationals `ℚ`; the claims use only
  ordering, `1 - d` and `m + 1` arithmetic on them.
* The embedding extractor (`FaceRecognitionEngine.process_image_for_faces`)
  and the distance metric (`FaceRecognitionEngine.face_distance`) are external
  capabilities; they enter the model as oracle function parameters.
* The SQLite connections opened by `database_manager.py` never execute
  `PRAGMA foreign_keys = ON`, so (per sqlite3 defaults) the schema's
  `ON DELETE CASCADE` clause is *not* enforced at run time; the model
  reproduces the run-time behaviour: replacing an image row does not touch
  `face_encodings` rows.
-/

/-! ### String and path helpers (models of Python `str` / `os.path` operations) -/

/-- Model of Python `s.startswith(pre)`: a plain string-prefix test. -/
def strHasPrefix (s pre : String) : Bool :=
  pre.data.isPrefixOf s.data

/-- Model of POSIX `os.path.basename`: the part after the last `'/'`. -/
def basenameStr (p : String) : String :=
  ⟨(p.data.reverse.takeWhile (fun c => c ≠ '/')).reverse⟩

/-- Model of POSIX `os.path.dirname`: `p[:i+1]` for the last separator index
`i`, right-stripped of separators unless it consists only of separators. -/
def dirnameStr (p : String) : String :=
  let head := (p.data.reverse.dropWhile (fun c => c ≠ '/')).reverse
  if head = [] then ⟨[]⟩
  else if head.all (fun c => c = '/') then ⟨head⟩
  else ⟨(head.reverse.dropWhile (fun c => c = '/')).reverse⟩

/-- Model of POSIX `os.path.join(d, f)` for the call sites in the source:
`f` replaces everything when absolute, otherwise it is appended with a
separator inserted unless `d` is empty or already ends in one. -/
def joinPath (d f : String) : String :=
  if strHasPrefix f "/" then f
  else if d = "" then f
  else if d.data.getLast? = some '/' then d ++ f
  else d ++ "/" ++ f

/-- Helper for `splitExtName`: splits `l` at its last `'.'` that has at least
one non-dot character strictly before it (`seen` records whether the prefix
already contains a non-dot character), returning `none` when no such dot
exists.  This mirrors CPython `posixpath.splitext`'s treatment of leading
dots. -/
def splitExtGo (seen : Bool) : List Char → Option (List Char × List Char)
  | [] => none
  | c :: t =>
    match splitExtGo (seen || c ≠ '.') t with
    | some (a, b) => some (c :: a, b)
    | none => if c = '.' ∧ seen then some ([], c :: t) else none

/-- Model of `os.path.splitext` applied to a bare file name (no separators):
splits into `(root, extension)`. -/
def splitExtName (name : String) : String × String :=
  match splitExtGo false name.data with
  | some (a, b) => (⟨a⟩, ⟨b⟩)
  | none => (name, "")

/-! ### Data model: the three SQLite relations of `database_manager.py` -/

/-- A face embedding vector (stored pickled in `encoding_data`); the model
only ever compares embeddings through the distance oracle. -/
abbrev Embedding := List ℚ

/-- A face bounding region `(top, right, bottom, left)` (stored as JSON in
`face_location`). -/
abbrev Region := List ℤ

/-- One row of the `images` table. -/
structure ImageRow where
  id : ℕ
  file_path : String
  file_name : String
  file_size : ℕ
  modification_time : ℚ
  face_count : ℕ
  folder_path : String
deriving DecidableEq

/-- One row of the `face_encodings` table. -/
structure EncodingRow where
  id : ℕ
  image_id : ℕ
  face_index : ℕ
  encoding : Embedding
  face_location : Region
  confidence_score : ℚ
deriving DecidableEq

/-- One row of the `search_folders` table. -/
structure FolderRow where
  id : ℕ
  folder_path : String
  is_active : Bool
deriving DecidableEq

/-- The persistent store owned by `DatabaseManager`: the three tables plus
the `AUTOINCREMENT` counters for their primary keys. -/
structure Database where
  images : List ImageRow
  face_encodings : List EncodingRow
  search_folders : List FolderRow
  next_image_id : ℕ
  next_encoding_id : ℕ
  next_folder_id : ℕ
deriving DecidableEq

/-- The freshly initialised store (`DatabaseManager.init_database`). -/
def emptyDb : Database :=
  { images := [], face_encodings := [], search_folders := []
    next_image_id := 0, next_encoding_id := 0, next_folder_id := 0 }

/-! ### `DatabaseManager` operations -/

/-- `DatabaseManager.add_search_folder`: `INSERT OR REPLACE INTO
search_folders (folder_path, is_active) VALUES (?, 1)`.  `REPLACE` drops any
row with the same (UNIQUE) `folder_path` and inserts a fresh row. -/
def add_search_folder (db : Database) (folder_path : String) : Bool × Database :=
  (true,
    { db with
      search_folders :=
        db.search_folders.filter (fun f => f.folder_path ≠ folder_path) ++
          [⟨db.next_folder_id, folder_path, true⟩]
      next_folder_id := db.next_folder_id + 1 })

/-- `DatabaseManager.get_search_folders`: `SELECT folder_path FROM
search_folders WHERE is_active = 1`. -/
def get_search_folders (db : Database) : List String :=
  (db.search_folders.filter (fun f => f.is_active)).map (fun f => f.folder_path)

/-- `DatabaseManager.remove_search_folder`: `UPDATE search_folders SET
is_active = 0 WHERE folder_path = ?` — a soft delete. -/
def remove_search_folder (db : Database) (folder_path : String) : Bool × Database :=
  (true,
    { db with
      search_folders :=
        db.search_folders.map (fun f =>
          if f.folder_path = folder_path then { f with is_active := false } else f) })

/-- `DatabaseManager.add_image_record`: `INSERT OR REPLACE INTO images ...`;
the conflicting row (same UNIQUE `file_path`) is dropped, a fresh row with a
fresh id is inserted, and `cursor.lastrowid` (the fresh id) is returned.
Because foreign keys are not enforced (no `PRAGMA foreign_keys = ON`), the
replaced image's `face_encodings` rows are left in place. -/
def add_image_record (db : Database) (file_path file_name : String)
    (file_size : ℕ) (modification_time : ℚ) (face_count : ℕ)
    (folder_path : String) : Option ℕ × Database :=
  (some db.next_image_id,
    { db with
      images :=
        db.images.filter (fun r => r.file_path ≠ file_path) ++
          [⟨db.next_image_id, file_path, file_name, file_size,
            modification_time, face_count, folder_path⟩]
      next_image_id := db.next_image_id + 1 })

/-- `DatabaseManager.add_face_encoding`: plain `INSERT INTO face_encodings`. -/
def add_face_encoding (db : Database) (image_id face_index : ℕ)
    (encoding : Embedding) (face_location : Region)
    (confidence_score : ℚ) : Bool × Database :=
  (true,
    { db with
      face_encodings :=
        db.face_encodings ++
          [⟨db.next_encoding_id, image_id, face_index, encoding,
            face_location, confidence_score⟩]
      next_encoding_id := db.next_encoding_id + 1 })

/-- `DatabaseManager.get_image_by_path`: `SELECT ... FROM images WHERE
file_path = ?` with `fetchone()`. -/
def get_image_by_path (db : Database) (file_path : String) : Option ImageRow :=
  db.images.find? (fun r => r.file_path = file_path)

/-- One row of the result of `DatabaseManager.get_all_face_encodings`'s
`JOIN` of `face_encodings` with `images`. -/
structure JoinedEncoding where
  id : ℕ
  image_id : ℕ
  face_index : ℕ
  encoding : Embedding
  face_location : Region
  confidence_score : ℚ
  file_path : String
  file_name : String
deriving DecidableEq

/-- `DatabaseManager.get_all_face_encodings`: `SELECT ... FROM face_encodings
fe JOIN images i ON fe.image_id = i.id`.  Image ids are unique (fresh counter
values), so the join is modelled by looking up each encoding's owner; rows
whose `image_id` matches no image (orphans) produce no joined row. -/
def get_all_face_encodings (db : Database) : List JoinedEncoding :=
  db.face_encodings.filterMap (fun fe =>
    (db.images.find? (fun im => im.id = fe.image_id)).map (fun im =>
      ⟨fe.id, fe.image_id, fe.face_index, fe.encoding, fe.face_location,
        fe.confidence_score, im.file_path, im.file_name⟩))

/-- `DatabaseManager.is_image_processed`: true iff a record for the path
exists whose stored `modification_time` is `≥` the given one. -/
def is_image_processed (db : Database) (file_path : String)
    (modification_time : ℚ) : Bool :=
  match get_image_by_path db file_path with
  | some r => decide (modification_time ≤ r.modification_time)
  | none => false

/-- `DatabaseManager.delete_image_and_faces`: looks up the image row for the
path; if present, deletes its `face_encodings` rows and the image row;
returns `True` in either case. -/
def delete_image_and_faces (db : Database) (file_path : String) :
    Bool × Database :=
  match db.images.find? (fun r => r.file_path = file_path) with
  | some row =>
    (true,
      { db with
        face_encodings := db.face_encodings.filter (fun fe => fe.image_id ≠ row.id)
        images := db.images.filter (fun im => im.id ≠ row.id) })
  | none => (true, db)

/-- The counters of `DatabaseManager.get_database_stats` (the database file
size is a filesystem attribute outside the store model). -/
structure DbStats where
  total_images : ℕ
  total_faces : ℕ
  active_folders : ℕ
deriving DecidableEq

/-- `DatabaseManager.get_database_stats`: the `active_folders` entry is
computed by `SELECT COUNT(*) FROM search_folders`, which counts every row of
the table, soft-deleted ones included. -/
def get_database_stats (db : Database) : DbStats :=
  { total_images := db.images.length
    total_faces := db.face_encodings.length
    active_folders := db.search_folders.length }

/-! ### `PhotoManager.index_image` -/

/-- The success payload of the embedding extractor
(`FaceRecognitionEngine.process_image_for_faces`): face count, bounding
regions and embeddings. -/
structure FaceData where
  face_count : ℕ
  face_locations : List Region
  face_encodings : List Embedding
deriving DecidableEq

/-- The `os.stat` data `index_image` reads: modification time and size. -/
structure FileStat where
  mtime : ℚ
  size : ℕ
deriving DecidableEq

/-- The loop `for i, (location, encoding) in enumerate(zip(...))` of
`index_image`, adding one `face_encodings` row per detected face. -/
def addFaceEncodings (image_id : ℕ) : Database → ℕ → List (Region × Embedding) → Database
  | db, _, [] => db
  | db, i, (loc, enc) :: rest =>
    addFaceEncodings image_id (add_face_encoding db image_id i enc loc 1).2 (i + 1) rest

/-- `PhotoManager.index_image`: checks existence, short-circuits on
`is_image_processed`, invokes the extractor oracle, and on success writes the
image record followed by its face encodings.  `stat` models the filesystem
(`os.path.exists` / `os.stat`), `extract` models
`FaceRecognitionEngine.process_image_for_faces` (whose failure is the
`"error"`-key result). -/
def index_image (extract : String → Except String FaceData)
    (stat : String → Option FileStat) (db : Database)
    (image_path : String) : Bool × Database :=
  match stat image_path with
  | none => (false, db)
  | some st =>
    let file_name := basenameStr image_path
    let folder_path := dirnameStr image_path
    if is_image_processed db image_path st.mtime then (true, db)
    else
      match extract image_path with
      | .error _ => (false, db)
      | .ok face_data =>
        match add_image_record db image_path file_name st.size st.mtime
            face_data.face_count folder_path with
        | (none, db1) => (false, db1)
        | (some image_id, db1) =>
          (true, addFaceEncodings image_id db1 0
            (face_data.face_locations.zip face_data.face_encodings))

/-! ### `PhotoManager.search_similar_faces` -/

/-- One element of the list returned by `search_similar_faces`. -/
structure MatchRow where
  file_path : String
  file_name : String
  face_location : Region
  distance : ℚ
  similarity : ℚ
  face_index : ℕ
deriving DecidableEq

/-- `PhotoManager.search_similar_faces`: scans all joined encodings, skips
rows outside the active search folders (when restricting and folders exist),
computes `distance` via the metric oracle `dist`
(`FaceRecognitionEngine.face_distance`) and `similarity = 1 - distance`,
keeps rows with `distance ≤ tolerance` and `similarity ≥ min_similarity`, and
stably sorts the matches by descending similarity (`list.sort(key=...,
reverse=True)`). -/
def search_similar_faces (dist : Embedding → Embedding → ℚ) (db : Database)
    (reference_encoding : Embedding) (tolerance min_similarity : ℚ)
    (restrict_to_current_folder : Bool) : List MatchRow :=
  let all_encodings := get_all_face_encodings db
  let current_folders :=
    if restrict_to_current_folder then get_search_folders db else []
  let matchList := all_encodings.filterMap (fun fd =>
    if restrict_to_current_folder && !current_folders.isEmpty &&
        !(current_folders.any (fun folder => strHasPrefix fd.file_path folder)) then
      none
    else
      let distance := dist fd.encoding reference_encoding
      let similarity := 1 - distance
      if distance ≤ tolerance ∧ min_similarity ≤ similarity then
        some ⟨fd.file_path, fd.file_name, fd.face_location, distance,
          similarity, fd.face_index⟩
      else none)
  matchList.mergeSort (fun a b => decide (b.similarity ≤ a.similarity))

/-! ### File operations (`copy_files`, `move_files`, `delete_files`)

The local filesystem is modelled as an association list of file paths to
abstract content values plus a list of directory paths; `os.path.exists`
checks both. -/

/-- A model filesystem: files (path, content) and directories.  A directory
entry cannot be read as a file (`shutil.copy2` / `os.remove` on it raise). -/
structure FileSys where
  files : List (String × ℕ)
  dirs : List String
deriving DecidableEq

/-- Every path present in the filesystem (file or directory). -/
def allPaths (fs : FileSys) : List String :=
  fs.files.map (fun e => e.1) ++ fs.dirs

/-- Model of `os.path.exists`. -/
def existsPath (fs : FileSys) (p : String) : Bool :=
  decide (p ∈ allPaths fs)

/-- Reads a file's content; `none` when `p` is not a file (in particular when
it is a directory). -/
def readFile (fs : FileSys) (p : String) : Option ℕ :=
  (fs.files.find? (fun e => e.1 = p)).map (fun e => e.2)

/-- Model of `os.makedirs`. -/
def makedirs (fs : FileSys) (d : String) : FileSys :=
  { fs with dirs := fs.dirs ++ [d] }

/-- The collision name `f"{base_name}_{counter}{ext}"` joined onto the
destination folder. -/
def candidateName (dest base ext : String) (counter : ℕ) : String :=
  joinPath dest (base ++ "_" ++ Nat.repr counter ++ ext)

/-- The `while os.path.exists(dest_path)` loop of `copy_files` / `move_files`:
starting from the plain destination name, tries `base_1.ext`, `base_2.ext`,
... until a non-existing path is found.  The loop is given explicit fuel;
`resolveLoop_not_exists` shows the fuel used at the call sites is always
sufficient, so the fuel-exhausted branch is dead code. -/
def resolveLoop (fs : FileSys) (dest base ext : String) :
    ℕ → ℕ → String → String
  | 0, _, cur => cur
  | fuel + 1, counter, cur =>
    if existsPath fs cur then
      resolveLoop fs dest base ext fuel (counter + 1)
        (candidateName dest base ext counter)
    else cur

/-- Chooses the destination path for one copied/moved source file: the plain
base name if free, else the first free suffixed name. -/
def resolveDestPath (fs : FileSys) (dest file_name : String) : String :=
  let s := splitExtName file_name
  resolveLoop fs dest s.1 s.2 ((allPaths fs).length + 1) 1
    (joinPath dest file_name)

/-- The `{successful, failed, errors}` result dictionary of the three file
operations. -/
structure FileOpResult where
  successful : ℕ
  failed : ℕ
  errors : List String
deriving DecidableEq

/-- One iteration of the `copy_files` loop over `source_paths`: on a missing
source path, or when `shutil.copy2` raises (source unreadable as a file, or
destination not a directory), the failure is counted and an error message
recorded; otherwise the file content is written at the resolved collision-free
destination path. -/
def copyStep (dest : String) (st : FileSys × FileOpResult) (p : String) :
    FileSys × FileOpResult :=
  let fs := st.1
  let res := st.2
  if existsPath fs p then
    match readFile fs p with
    | some c =>
      if fs.dirs.contains dest then
        let dest_path := resolveDestPath fs dest (basenameStr p)
        ({ fs with files := fs.files ++ [(dest_path, c)] },
          { res with successful := res.successful + 1 })
      else
        (fs, { res with failed := res.failed + 1, errors := res.errors ++ ["Error copying " ++ p] })
    | none =>
      (fs, { res with failed := res.failed + 1, errors := res.errors ++ ["Error copying " ++ p] })
  else
    (fs, { res with failed := res.failed + 1, errors := res.errors ++ ["File not found: " ++ p] })

/-- `PhotoManager.copy_files`: creates the destination folder when absent,
then copies each source path under the collision-avoiding naming scheme. -/
def copy_files (fs : FileSys) (source_paths : List String)
    (destination_folder : String) : FileSys × FileOpResult :=
  let fs := if existsPath fs destination_folder then fs
            else makedirs fs destination_folder
  source_paths.foldl (copyStep destination_folder) (fs, ⟨0, 0, []⟩)

/-- Removes the first file entry for path `p` (model of `os.remove` /
the source half of `shutil.move`). -/
def removeFileEntry (fs : FileSys) (p : String) : FileSys :=
  { fs with files := fs.files.eraseP (fun e => e.1 = p) }

/-- One iteration of the `move_files` loop: like `copyStep` but the source
entry is removed and `delete_image_and_faces` is invoked for the original
path after a successful move.  (Directories are not modelled as movable;
an unreadable source is treated as the exception branch.) -/
def moveStep (dest : String) (st : FileSys × Database × FileOpResult)
    (p : String) : FileSys × Database × FileOpResult :=
  let fs := st.1
  let db := st.2.1
  let res := st.2.2
  if existsPath fs p then
    match readFile fs p with
    | some c =>
      if fs.dirs.contains dest then
        let dest_path := resolveDestPath fs dest (basenameStr p)
        let fs' := removeFileEntry fs p
        ({ fs' with files := fs'.files ++ [(dest_path, c)] },
          (delete_image_and_faces db p).2,
          { res with successful := res.successful + 1 })
      else
        (fs, db, { res with failed := res.failed + 1, errors := res.errors ++ ["Error moving " ++ p] })
    | none =>
      (fs, db, { res with failed := res.failed + 1, errors := res.errors ++ ["Error moving " ++ p] })
  else
    (fs, db, { res with failed := res.failed + 1, errors := res.errors ++ ["File not found: " ++ p] })

/-- `PhotoManager.move_files`. -/
def move_files (fs : FileSys) (db : Database) (source_paths : List String)
    (destination_folder : String) : FileSys × Database × FileOpResult :=
  let fs := if existsPath fs destination_folder then fs
            else makedirs fs destination_folder
  source_paths.foldl (moveStep destination_folder) (fs, db, ⟨0, 0, []⟩)

/-- One iteration of the `delete_files` loop: removes the file and its store
rows; a missing file still gets store cleanup but is counted as failed; a
directory path makes `os.remove` raise (exception branch). -/
def deleteStep (st : FileSys × Database × FileOpResult) (p : String) :
    FileSys × Database × FileOpResult :=
  let fs := st.1
  let db := st.2.1
  let res := st.2.2
  if existsPath fs p then
    match readFile fs p with
    | some _ =>
      (removeFileEntry fs p, (delete_image_and_faces db p).2,
        { res with successful := res.successful + 1 })
    | none =>
      (fs, db, { res with failed := res.failed + 1, errors := res.errors ++ ["Error deleting " ++ p] })
  else
    (fs, (delete_image_and_faces db p).2,
      { res with failed := res.failed + 1, errors := res.errors ++ ["File not found: " ++ p] })

/-- `PhotoManager.delete_files`. -/
def delete_files (fs : FileSys) (db : Database) (file_paths : List String) :
    FileSys × Database × FileOpResult :=
  file_paths.foldl deleteStep (fs, db, ⟨0, 0, []⟩)

/-! ### Statement vocabulary -/

/-- A stored row's path is eligible for a search: either no restriction is
requested, or no scope folder is configured, or some scope folder is a string
prefix of the path. -/
def inScope (restrict : Bool) (folders : List String) (p : String) : Prop :=
  restrict = false ∨ folders = [] ∨ ∃ f ∈ folders, strHasPrefix p f = true

/-- The result row `search_similar_faces` builds for a joined encoding at
distance `d`; its similarity is `1 - d` by construction. -/
def mkMatch (fd : JoinedEncoding) (d : ℚ) : MatchRow :=
  ⟨fd.file_path, fd.file_name, fd.face_location, d, 1 - d, fd.face_index⟩

/-! ### Decimal-numeral helpers

Used to prove `Nat.repr` injective, which is what makes the collision-suffix
naming scheme of `copy_files` produce fresh names. -/

/-- Numeric value of a decimal digit character. -/
def digitVal (c : Char) : ℕ := c.toNat - '0'.toNat

/-- Value of a decimal digit string (most significant first). -/
def evalDigits (l : List Char) : ℕ :=
  l.foldl (fun a c => 10 * a + digitVal c) 0

/-! ### Concrete sample data for the witnesses -/

/-- A one-file filesystem view: `/photos/a.jpg` with mtime 5 and size 100. -/
def sampleStat : String → Option FileStat :=
  fun p => if p = "/photos/a.jpg" then some ⟨5, 100⟩ else none

/-- An extractor oracle that always fails. -/
def failingExtract : String → Except String FaceData :=
  fun _ => .error "Processing failed"

/-- An extractor oracle that always returns one face. -/
def okExtract : String → Except String FaceData :=
  fun _ => .ok ⟨1, [[0, 1, 2, 3]], [[7]]⟩

/-- The store after indexing `/photos/a.jpg` once from the empty store. -/
def sampleDb1 : Database :=
  (index_image okExtract sampleStat emptyDb "/photos/a.jpg").2

/-- The image row `sampleDb1` holds. -/
def sampleRow1 : ImageRow :=
  ⟨0, "/photos/a.jpg", "a.jpg", 100, 5, 1, "/photos"⟩

/-- The filesystem view after `/photos/a.jpg` was modified (mtime 6). -/
def bumpedStat : String → Option FileStat :=
  fun p => if p = "/photos/a.jpg" then some ⟨6, 100⟩ else none

/-- The store after re-indexing the modified `/photos/a.jpg`. -/
def sampleDb2 : Database :=
  (index_image okExtract bumpedStat sampleDb1 "/photos/a.jpg").2

/-- A store whose single search folder was added and then soft-deleted. -/
def sampleFolderDb : Database :=
  (remove_search_folder (add_search_folder emptyDb "/photos").2 "/photos").2

/-- A store with two images, each owning one encoding. -/
def sampleDb8 : Database :=
  { images := [⟨0, "/p/a.jpg", "a.jpg", 1, 1, 1, "/p"⟩,
               ⟨1, "/q/b.jpg", "b.jpg", 1, 1, 1, "/q"⟩]
    face_encodings := [⟨0, 0, 0, [1], [0, 0, 0, 0], 1⟩,
                       ⟨1, 1, 0, [2], [0, 0, 0, 0], 1⟩]
    search_folders := []
    next_image_id := 2, next_encoding_id := 2, next_folder_id := 0 }

/-- The image row of `sampleDb8` at `/p/a.jpg`. -/
def sampleRow8a : ImageRow := ⟨0, "/p/a.jpg", "a.jpg", 1, 1, 1, "/p"⟩

/-- The encoding row of `sampleDb8` owned by `/q/b.jpg`'s image. -/
def sampleFe8b : EncodingRow := ⟨1, 1, 0, [2], [0, 0, 0, 0], 1⟩

/-- `sampleDb8` with the single active search folder `/p`. -/
def sampleSearchDb : Database :=
  { sampleDb8 with search_folders := [⟨0, "/p", true⟩], next_folder_id := 1 }

/-- A distance oracle declaring every pair of embeddings identical. -/
def zeroDist : Embedding → Embedding → ℚ := fun _ _ => 0

/-- The match row the search witnesses expect for `/p/a.jpg`. -/
def sampleMatchA : MatchRow := ⟨"/p/a.jpg", "a.jpg", [0, 0, 0, 0], 0, 1, 0⟩

/-- The match row the search witnesses expect for `/q/b.jpg`. -/
def sampleMatchB : MatchRow := ⟨"/q/b.jpg", "b.jpg", [0, 0, 0, 0], 0, 1, 0⟩

/-- The joined row of `sampleSearchDb` for `/p/a.jpg`. -/
def sampleJoinedA : JoinedEncoding :=
  ⟨0, 0, 0, [1], [0, 0, 0, 0], 1, "/p/a.jpg", "a.jpg"⟩

/-- A filesystem with two same-base-name files in different folders. -/
def sampleFs : FileSys :=
  ⟨[("/a/x.jpg", 10), ("/b/x.jpg", 20)], ["/a", "/b"]⟩

/-! ### C4: stats counts all folder rows, not just active ones -/

/-- C4 (code evaluation): after adding the folder `/photos` and then
soft-deleting it, the folder row survives with its active flag cleared, so it
supports zero active folders — yet `get_database_stats` still reports
`active_folders = 1`, because the source computes that entry with
`SELECT COUNT(*) FROM search_folders` (no `is_active` filter), contradicting
its own `# Count active folders` comment and the claim. -/
theorem stats_counts_inactive_folder_rows :
    sampleFolderDb.search_folders.length = 1 ∧
    (sampleFolderDb.search_folders.filter (fun f => f.is_active)).length = 0 ∧
    (get_database_stats sampleFolderDb).active_folders = 1 := by
  decide

/-! ### C3: re-indexing a changed image leaves stale encoding rows -/

/-- C3 (code evaluation): `/photos/a.jpg` is indexed at mtime 5 producing one
encoding row owned by image id 0; after the file changes to mtime 6 it is
re-indexed (`is_image_processed` is false), which replaces the image row
(new id 1) and inserts the new pass's encoding row — but the first pass's
encoding row survives, orphaned at image id 0: the store does not hold
exactly the latest pass's encodings, contrary to the claim. -/
theorem reindex_leaves_stale_encoding_rows :
    is_image_processed sampleDb1 "/photos/a.jpg" 6 = false ∧
    sampleDb2.images.map (fun r => r.id) = [1] ∧
    sampleDb2.face_encodings.map (fun fe => fe.image_id) = [0, 1] ∧
    (∃ fe ∈ sampleDb2.face_encodings, ∀ im ∈ sampleDb2.images, fe.image_id ≠ im.id) := by
  decide

/-! ### C2: extractor failure means failure result and no store writes -/

/-- C2: for any image path whose file exists and is not already up to date
(so the extractor is actually consulted), if the extractor fails then
`index_image` returns failure and leaves the store untouched: no image
record and no encoding row is written. -/
theorem index_image_extractor_failure (extract : String → Except String FaceData)
    (stat : String → Option FileStat) (db : Database) (p : String)
    (st : FileStat) (e : String) (hstat : stat p = some st)
    (hstale : is_image_processed db p st.mtime = false)
    (herr : extract p = .error e) :
    index_image extract stat db p = (false, db) := by
  unfold index_image
  rw [hstat]
  simp [hstale, herr]

/-- C2 witness: the failing extractor on the fresh store. -/
theorem index_image_extractor_failure_witness :
    index_image failingExtract sampleStat emptyDb "/photos/a.jpg" = (false, emptyDb) :=
  index_image_extractor_failure failingExtract sampleStat emptyDb "/photos/a.jpg"
    ⟨5, 100⟩ "Processing failed" rfl (by decide) rfl

/-! ### C6: the staleness check -/

/-- With distinct stored paths, `find?` on the path returns exactly the
member row carrying that path. -/
theorem find?_file_path_eq (l : List ImageRow) (r : ImageRow) (p : String)
    (hnd : (l.map (fun x => x.file_path)).Nodup) (hr : r ∈ l)
    (hp : r.file_path = p) :
    l.find? (fun x => x.file_path = p) = some r := by
  induction l with
  | nil => cases hr
  | cons a t ih =>
    simp only [List.map_cons, List.nodup_cons, List.mem_map] at hnd
    rcases List.mem_cons.mp hr with rfl | hrt
    · simp [List.find?_cons, hp]
    · have hne : ¬(a.file_path = p) := by
        intro hap
        exact hnd.1 ⟨r, hrt, hp.trans hap.symm⟩
      simp only [List.find?_cons, decide_eq_false hne]
      exact ih hnd.2 hrt

/-- C6: over stores with unique image paths, `is_image_processed p m` is true
iff a record for `p` exists whose stored mtime is `≥ m`; and when the stored
mtime equals `m` exactly, the check passes at `m` and fails at `m + 1`. -/
theorem is_image_processed_iff (db : Database) (p : String) (m : ℚ)
    (hnd : (db.images.map (fun r => r.file_path)).Nodup) :
    (is_image_processed db p m = true ↔
      ∃ r ∈ db.images, r.file_path = p ∧ m ≤ r.modification_time) ∧
    (∀ r ∈ db.images, r.file_path = p → r.modification_time = m →
      is_image_processed db p m = true ∧ is_image_processed db p (m + 1) = false) := by
  constructor
  · constructor
    · intro h
      unfold is_image_processed get_image_by_path at h
      cases hfind : db.images.find? (fun r => r.file_path = p) with
      | none => rw [hfind] at h; cases h
      | some r =>
        rw [hfind] at h
        refine ⟨r, List.mem_of_find?_eq_some hfind, ?_, ?_⟩
        · simpa using List.find?_some hfind
        · simpa using h
    · rintro ⟨r, hr, hp, hm⟩
      unfold is_image_processed get_image_by_path
      rw [find?_file_path_eq db.images r p hnd hr hp]
      simpa using hm
  · intro r hr hp hm
    have hfind := find?_file_path_eq db.images r p hnd hr hp
    unfold is_image_processed get_image_by_path
    rw [hfind]
    constructor
    · simp [hm]
    · simp only [decide_eq_false_iff_not, not_le, hm]
      linarith

/-- C6 witness: the store holding `/photos/a.jpg` at stored mtime 5. -/
theorem is_image_processed_iff_witness :
    is_image_processed sampleDb1 "/photos/a.jpg" 5 = true ∧
    is_image_processed sampleDb1 "/photos/a.jpg" (5 + 1) = false :=
  (is_image_processed_iff sampleDb1 "/photos/a.jpg" 5 (by decide)).2
    sampleRow1 (by decide) rfl rfl

/-! ### C8: cascading delete, idempotent on missing paths -/

/-- C8: `delete_image_and_faces` reports success for every path — present or
absent — and afterwards no encoding row references the id of the image that
was stored at that path. -/
theorem delete_image_and_faces_spec (db : Database) (p : String) :
    (delete_image_and_faces db p).1 = true ∧
    (∀ r, get_image_by_path db p = some r →
      ∀ fe ∈ (delete_image_and_faces db p).2.face_encodings, fe.image_id ≠ r.id) := by
  unfold delete_image_and_faces get_image_by_path
  cases hfind : db.images.find? (fun r => r.file_path = p) with
  | none =>
    refine ⟨rfl, ?_⟩
    intro r hr
    cases hr
  | some row =>
    refine ⟨rfl, ?_⟩
    intro r hr fe hfe
    cases hr
    simp only [List.mem_filter, decide_eq_true_eq] at hfe
    exact hfe.2

/-- C8 witness: deleting `/p/a.jpg` from the two-image store; the surviving
encoding row belongs to the other image. -/
theorem delete_image_and_faces_spec_witness :
    (delete_image_and_faces sampleDb8 "/p/a.jpg").1 = true ∧
    sampleFe8b.image_id ≠ sampleRow8a.id :=
  ⟨(delete_image_and_faces_spec sampleDb8 "/p/a.jpg").1,
    (delete_image_and_faces_spec sampleDb8 "/p/a.jpg").2 sampleRow8a (by decide)
      sampleFe8b (by decide)⟩

/-! ### C5: indexing an unchanged file twice is a no-op that succeeds -/

/-- Writing face encodings never touches the `images` table. -/
theorem addFaceEncodings_images (image_id : ℕ) :
    ∀ (db : Database) (i : ℕ) (l : List (Region × Embedding)),
      (addFaceEncodings image_id db i l).images = db.images := by
  intro db i l
  induction l generalizing db i with
  | nil => rfl
  | cons h t ih => exact ih _ _

/-- C5: if `index_image` succeeded on a path and the file's stat data is
unchanged, a second call — with any extractor oracle whatsoever — returns
success and leaves the store exactly as the first call left it. -/
theorem index_image_idempotent (extract extract' : String → Except String FaceData)
    (stat : String → Option FileStat) (db db₁ : Database) (p : String)
    (hfirst : index_image extract stat db p = (true, db₁)) :
    index_image extract' stat db₁ p = (true, db₁) := by
  cases hstat : stat p with
  | none =>
    rw [index_image, hstat] at hfirst
    cases hfirst
  | some st =>
    rw [index_image, hstat] at hfirst
    by_cases hproc : is_image_processed db p st.mtime
    · simp only [hproc, if_true] at hfirst
      have hdb : db₁ = db := (Prod.mk.injEq _ _ _ _ ▸ hfirst).2.symm
      rw [index_image, hstat, hdb]
      simp [hproc]
    · simp only [hproc, if_false] at hfirst
      cases hex : extract p with
      | error e =>
        rw [hex] at hfirst
        cases hfirst
      | ok face_data =>
        rw [hex] at hfirst
        simp only [add_image_record] at hfirst
        have hdb : db₁ = addFaceEncodings db.next_image_id
            { db with
              images :=
                db.images.filter (fun r => r.file_path ≠ p) ++
                  [⟨db.next_image_id, p, basenameStr p, st.size, st.mtime,
                    face_data.face_count, dirnameStr p⟩]
              next_image_id := db.next_image_id + 1 } 0
            (face_data.face_locations.zip face_data.face_encodings) :=
          ((Prod.mk.injEq _ _ _ _).mp hfirst).2.symm
        have himg : db₁.images =
            db.images.filter (fun r => r.file_path ≠ p) ++
              [⟨db.next_image_id, p, basenameStr p, st.size, st.mtime,
                face_data.face_count, dirnameStr p⟩] := by
          rw [hdb, addFaceEncodings_images]
        have hproc' : is_image_processed db₁ p st.mtime = true := by
          unfold is_image_processed get_image_by_path
          rw [himg, List.find?_append]
          have hleft : (db.images.filter (fun r => r.file_path ≠ p)).find?
              (fun r => r.file_path = p) = none := by
            rw [List.find?_eq_none]
            intro x hx
            simp only [List.mem_filter, decide_eq_true_eq] at hx ⊢
            exact hx.2
          rw [hleft]
          simp
        rw [index_image, hstat]
        simp [hproc']

/-- C5 witness: re-running `index_image` on the already-indexed, unchanged
`/photos/a.jpg` — with an extractor oracle that would fail if consulted —
succeeds and leaves the store untouched. -/
theorem index_image_idempotent_witness :
    index_image failingExtract sampleStat sampleDb1 "/photos/a.jpg" =
      (true, sampleDb1) :=
  index_image_idempotent okExtract failingExtract sampleStat emptyDb sampleDb1
    "/photos/a.jpg" (by decide)

/-! ### C1: the search returns exactly the qualifying rows, ranked -/

/-- The per-row body of the search loop produces a result exactly when the
row is not skipped and passes both threshold gates. -/
theorem searchBody_eq_some (skip : Bool) (cond : Prop) [Decidable cond] (x m : MatchRow) :
    (if skip then none else if cond then some x else none) = some m ↔
      skip = false ∧ cond ∧ x = m := by
  cases skip <;> split_ifs <;> simp_all

/-- The scope-skip condition of the search loop is off exactly when the row
is in scope. -/
theorem skip_false_iff (restrict : Bool) (folders : List String) (p : String) :
    ((restrict && !(if restrict = true then folders else []).isEmpty &&
      !((if restrict = true then folders else []).any
          (fun folder => strHasPrefix p folder))) = false)
    ↔ inScope restrict folders p := by
  cases restrict
  · simp [inScope]
  · simp only [if_true, Bool.true_and, inScope, Bool.and_eq_false_iff,
      Bool.not_eq_false', List.isEmpty_iff, List.any_eq_true]
    tauto

/-- C1: a row is returned iff it is a stored (joined) encoding, in scope,
with `distance ≤ tolerance` and `1 - distance ≥ min_similarity`; every
returned row carries `similarity = 1 - distance` (it equals
`mkMatch fd distance`); and the returned list is sorted by descending
similarity. -/
theorem search_similar_faces_correct (dist : Embedding → Embedding → ℚ)
    (db : Database) (q : Embedding) (tol ms : ℚ) (restrict : Bool) :
    (∀ m, m ∈ search_similar_faces dist db q tol ms restrict ↔
      ∃ fd ∈ get_all_face_encodings db,
        inScope restrict (get_search_folders db) fd.file_path ∧
        dist fd.encoding q ≤ tol ∧ ms ≤ 1 - dist fd.encoding q ∧
        m = mkMatch fd (dist fd.encoding q)) ∧
    (search_similar_faces dist db q tol ms restrict).Pairwise
      (fun a b => b.similarity ≤ a.similarity) := by
  constructor
  · intro m
    simp only [search_similar_faces, List.mem_mergeSort, List.mem_filterMap,
      searchBody_eq_some, mkMatch]
    constructor
    · rintro ⟨fd, hfd, hskip, hc, hx⟩
      exact ⟨fd, hfd, (skip_false_iff restrict (get_search_folders db) fd.file_path).mp hskip,
        hc.1, hc.2, hx.symm⟩
    · rintro ⟨fd, hfd, hsc, h1, h2, rfl⟩
      exact ⟨fd, hfd, (skip_false_iff restrict (get_search_folders db) fd.file_path).mpr hsc,
        ⟨h1, h2⟩, rfl⟩
  · simp only [search_similar_faces]
    exact (@List.sorted_mergeSort MatchRow
      (fun a b => decide (b.similarity ≤ a.similarity))
      (fun a b c hab hbc => by
        simp only [decide_eq_true_eq] at *
        exact le_trans hbc hab)
      (fun a b => by
        simp only [Bool.or_eq_true, decide_eq_true_eq]
        exact le_total b.similarity a.similarity)
      _).imp (fun h => decide_eq_true_eq.mp h)

/-- C1 witness: the zero-distance oracle puts `/p/a.jpg`'s stored encoding in
the unscoped result with similarity `1 - 0`. -/
theorem search_similar_faces_correct_witness :
    sampleMatchA ∈ search_similar_faces zeroDist sampleSearchDb [9] 1 0 false :=
  ((search_similar_faces_correct zeroDist sampleSearchDb [9] 1 0 false).1
      sampleMatchA).mpr
    ⟨sampleJoinedA, by decide, Or.inl rfl, by decide, by simp [zeroDist],
      by simp [mkMatch, zeroDist, sampleMatchA, sampleJoinedA]⟩

/-! ### C7: the scope filter -/

/-- C7: when restricting, every result's path starts with some active search
folder (provided any are configured), and with no active search folders the
restricted search returns exactly the unrestricted results. -/
theorem search_scope_filter (dist : Embedding → Embedding → ℚ) (db : Database)
    (q : Embedding) (tol ms : ℚ) :
    (∀ m ∈ search_similar_faces dist db q tol ms true,
      get_search_folders db ≠ [] →
        ∃ f ∈ get_search_folders db, strHasPrefix m.file_path f = true) ∧
    (get_search_folders db = [] →
      search_similar_faces dist db q tol ms true =
        search_similar_faces dist db q tol ms false) := by
  constructor
  · intro m hm hne
    simp only [search_similar_faces, List.mem_mergeSort, List.mem_filterMap,
      searchBody_eq_some] at hm
    obtain ⟨fd, _, hskip, _, hx⟩ := hm
    have hsc := (skip_false_iff true (get_search_folders db) fd.file_path).mp hskip
    rcases hsc with hf | hemp | ⟨f, hf, hp⟩
    · cases hf
    · exact absurd hemp hne
    · refine ⟨f, hf, ?_⟩
      rw [← hx]
      exact hp
  · intro h
    simp [search_similar_faces, h]

/-- C7 witness: with active scope `["/p"]` the result `/p/a.jpg` starts with
`/p`; with no active folders the scoped and unscoped searches agree. -/
theorem search_scope_filter_witness :
    (∃ f ∈ get_search_folders sampleSearchDb,
      strHasPrefix sampleMatchA.file_path f = true) ∧
    search_similar_faces zeroDist sampleDb8 [9] 1 0 true =
      search_similar_faces zeroDist sampleDb8 [9] 1 0 false :=
  ⟨(search_scope_filter zeroDist sampleSearchDb [9] 1 0).1 sampleMatchA
      (by simp [search_similar_faces, sampleSearchDb, sampleDb8,
        get_all_face_encodings, get_search_folders, zeroDist, strHasPrefix,
        sampleMatchA, List.mergeSort, List.filterMap, List.find?,
        List.isPrefixOf]) (by decide),
    (search_scope_filter zeroDist sampleDb8 [9] 1 0).2 (by decide)⟩



/-! ### C10: file-operation counters always reconcile -/

/-- Folding a step that either counts one success (errors untouched) or
counts one failure (one error appended) keeps the counters reconciled. -/
theorem foldl_counters {σ : Type} (step : σ → String → σ) (proj : σ → FileOpResult)
    (hstep : ∀ s p,
      ((proj (step s p)).successful = (proj s).successful + 1 ∧
        (proj (step s p)).failed = (proj s).failed ∧
        (proj (step s p)).errors = (proj s).errors) ∨
      ((proj (step s p)).successful = (proj s).successful ∧
        (proj (step s p)).failed = (proj s).failed + 1 ∧
        (proj (step s p)).errors.length = (proj s).errors.length + 1)) :
    ∀ (paths : List String) (s : σ),
      (proj (paths.foldl step s)).successful + (proj (paths.foldl step s)).failed =
        (proj s).successful + (proj s).failed + paths.length ∧
      ((proj s).errors.length = (proj s).failed →
        (proj (paths.foldl step s)).errors.length = (proj (paths.foldl step s)).failed) := by
  intro paths
  induction paths with
  | nil => intro s; exact ⟨by simp, fun h => h⟩
  | cons p t ih =>
    intro s
    simp only [List.foldl_cons, List.length_cons]
    refine ⟨?_, ?_⟩
    · have h1 := (ih (step s p)).1
      rcases hstep s p with ⟨ha, hb, _⟩ | ⟨ha, hb, _⟩ <;> rw [h1, ha, hb] <;> omega
    · intro h
      apply (ih (step s p)).2
      rcases hstep s p with ⟨_, hb, hc⟩ | ⟨_, hb, hc⟩ <;> rw [hc, hb] <;> omega

/-- Each `copy_files` iteration counts one success or one failure-with-error. -/
theorem copyStep_counters (dest : String) (s : FileSys × FileOpResult) (p : String) :
    (((copyStep dest s p).2).successful = (s.2).successful + 1 ∧
      ((copyStep dest s p).2).failed = (s.2).failed ∧
      ((copyStep dest s p).2).errors = (s.2).errors) ∨
    (((copyStep dest s p).2).successful = (s.2).successful ∧
      ((copyStep dest s p).2).failed = (s.2).failed + 1 ∧
      ((copyStep dest s p).2).errors.length = (s.2).errors.length + 1) := by
  obtain ⟨fs, res⟩ := s
  simp only [copyStep]
  repeat' split
  all_goals simp

/-- Each `move_files` iteration counts one success or one failure-with-error. -/
theorem moveStep_counters (dest : String) (s : FileSys × Database × FileOpResult) (p : String) :
    (((moveStep dest s p).2.2).successful = (s.2.2).successful + 1 ∧
      ((moveStep dest s p).2.2).failed = (s.2.2).failed ∧
      ((moveStep dest s p).2.2).errors = (s.2.2).errors) ∨
    (((moveStep dest s p).2.2).successful = (s.2.2).successful ∧
      ((moveStep dest s p).2.2).failed = (s.2.2).failed + 1 ∧
      ((moveStep dest s p).2.2).errors.length = (s.2.2).errors.length + 1) := by
  obtain ⟨fs, db, res⟩ := s
  simp only [moveStep]
  repeat' split
  all_goals simp

/-- Each `delete_files` iteration counts one success or one failure-with-error. -/
theorem deleteStep_counters (s : FileSys × Database × FileOpResult) (p : String) :
    (((deleteStep s p).2.2).successful = (s.2.2).successful + 1 ∧
      ((deleteStep s p).2.2).failed = (s.2.2).failed ∧
      ((deleteStep s p).2.2).errors = (s.2.2).errors) ∨
    (((deleteStep s p).2.2).successful = (s.2.2).successful ∧
      ((deleteStep s p).2.2).failed = (s.2.2).failed + 1 ∧
      ((deleteStep s p).2.2).errors.length = (s.2.2).errors.length + 1) := by
  obtain ⟨fs, db, res⟩ := s
  simp only [deleteStep]
  repeat' split
  all_goals simp

/-- C10: for each of `copy_files`, `move_files` and `delete_files` on `n`
input paths, `successful + failed = n` and the error list holds exactly one
message per failed path. -/
theorem file_ops_counters (fs : FileSys) (db : Database) (paths : List String)
    (dest : String) :
    ((copy_files fs paths dest).2.successful + (copy_files fs paths dest).2.failed
        = paths.length ∧
      (copy_files fs paths dest).2.errors.length = (copy_files fs paths dest).2.failed) ∧
    ((move_files fs db paths dest).2.2.successful + (move_files fs db paths dest).2.2.failed
        = paths.length ∧
      (move_files fs db paths dest).2.2.errors.length = (move_files fs db paths dest).2.2.failed) ∧
    ((delete_files fs db paths).2.2.successful + (delete_files fs db paths).2.2.failed
        = paths.length ∧
      (delete_files fs db paths).2.2.errors.length = (delete_files fs db paths).2.2.failed) := by
  refine ⟨⟨?_, ?_⟩, ⟨?_, ?_⟩, ⟨?_, ?_⟩⟩
  · have := (foldl_counters (copyStep dest) Prod.snd (copyStep_counters dest) paths
      (if existsPath fs dest then fs else makedirs fs dest, ⟨0, 0, []⟩)).1
    simpa [copy_files] using this
  · have := (foldl_counters (copyStep dest) Prod.snd (copyStep_counters dest) paths
      (if existsPath fs dest then fs else makedirs fs dest, ⟨0, 0, []⟩)).2
    simpa [copy_files] using this rfl
  · have := (foldl_counters (moveStep dest) (fun s => s.2.2) (moveStep_counters dest) paths
      (if existsPath fs dest then fs else makedirs fs dest, db, ⟨0, 0, []⟩)).1
    simpa [move_files] using this
  · have := (foldl_counters (moveStep dest) (fun s => s.2.2) (moveStep_counters dest) paths
      (if existsPath fs dest then fs else makedirs fs dest, db, ⟨0, 0, []⟩)).2
    simpa [move_files] using this rfl
  · have := (foldl_counters deleteStep (fun s => s.2.2) deleteStep_counters paths
      (fs, db, ⟨0, 0, []⟩)).1
    simpa [delete_files] using this
  · have := (foldl_counters deleteStep (fun s => s.2.2) deleteStep_counters paths
      (fs, db, ⟨0, 0, []⟩)).2
    simpa [delete_files] using this rfl

/-! ### C9: collision-free copying -/

/-- The decimal digit characters evaluate back to their digit. -/
theorem digitVal_digitChar (d : ℕ) (h : d < 10) :
    digitVal (Nat.digitChar d) = d := by
  interval_cases d <;> decide

/-- With sufficient fuel, `Nat.toDigitsCore` prepends the digits of `n` to
the accumulator. -/
theorem toDigitsCore_shift (n : ℕ) : ∀ (fuel : ℕ) (ds : List Char), n < fuel →
    Nat.toDigitsCore 10 fuel n ds = Nat.toDigitsCore 10 (n + 1) n [] ++ ds := by
  induction n using Nat.strong_induction_on with
  | _ n ih =>
    intro fuel ds hfuel
    obtain ⟨f, rfl⟩ : ∃ f, fuel = f + 1 := ⟨fuel - 1, by omega⟩
    by_cases h0 : n / 10 = 0
    · simp [Nat.toDigitsCore, h0]
    · have hn : 0 < n := by
        rcases Nat.eq_zero_or_pos n with rfl | hp
        · simp at h0
        · exact hp
      have hdiv_lt : n / 10 < n := Nat.div_lt_self hn (by omega)
      have hdiv_f : n / 10 < f := by
        have h10 : 10 ≤ n := by
          by_contra hlt
          exact h0 (Nat.div_eq_of_lt (by omega))
        omega
      have lhs : Nat.toDigitsCore 10 (f + 1) n ds =
          Nat.toDigitsCore 10 f (n / 10) (Nat.digitChar (n % 10) :: ds) := by
        simp [Nat.toDigitsCore, h0]
      have rhs : Nat.toDigitsCore 10 (n + 1) n [] =
          Nat.toDigitsCore 10 n (n / 10) [Nat.digitChar (n % 10)] := by
        simp [Nat.toDigitsCore, h0]
      rw [lhs, rhs, ih (n / 10) hdiv_lt f _ hdiv_f,
        ih (n / 10) hdiv_lt n _ hdiv_lt]
      simp

/-- The decimal rendering of `n` evaluates back to `n`. -/
theorem evalDigits_toDigits (n : ℕ) : evalDigits (Nat.toDigits 10 n) = n := by
  induction n using Nat.strong_induction_on with
  | _ n ih =>
    by_cases h0 : n / 10 = 0
    · have hn : n < 10 := by omega
      simp only [Nat.toDigits, Nat.toDigitsCore, h0, if_true, evalDigits,
        List.foldl_cons, List.foldl_nil, Nat.mod_eq_of_lt hn]
      rw [digitVal_digitChar n hn]
      omega
    · have hn : 0 < n := by
        rcases Nat.eq_zero_or_pos n with rfl | hp
        · simp at h0
        · exact hp
      have hdiv_lt : n / 10 < n := Nat.div_lt_self hn (by omega)
      have step : Nat.toDigits 10 n =
          Nat.toDigits 10 (n / 10) ++ [Nat.digitChar (n % 10)] := by
        rw [Nat.toDigits]
        have h1 : Nat.toDigitsCore 10 (n + 1) n [] =
            Nat.toDigitsCore 10 n (n / 10) [Nat.digitChar (n % 10)] := by
          simp [Nat.toDigitsCore, h0]
        rw [h1, toDigitsCore_shift (n / 10) n _ hdiv_lt]
        rfl
      rw [step]
      have heval : evalDigits (Nat.toDigits 10 (n / 10) ++ [Nat.digitChar (n % 10)]) =
          10 * evalDigits (Nat.toDigits 10 (n / 10)) + digitVal (Nat.digitChar (n % 10)) := by
        simp [evalDigits, List.foldl_append]
      rw [heval, ih (n / 10) hdiv_lt, digitVal_digitChar (n % 10) (Nat.mod_lt _ (by omega))]
      omega

/-- Distinct naturals have distinct decimal renderings. -/
theorem natRepr_injective : Function.Injective Nat.repr := by
  intro a b h
  have hdata : Nat.toDigits 10 a = Nat.toDigits 10 b := by
    have := congrArg String.data h
    simpa [Nat.repr, List.asString] using this
  have := congrArg evalDigits hdata
  simpa [evalDigits_toDigits] using this


/-- Injectivity of the decimal digit list. -/
theorem toDigits_inj {a b : ℕ} (h : Nat.toDigits 10 a = Nat.toDigits 10 b) : a = b := by
  have := congrArg evalDigits h
  simpa [evalDigits_toDigits] using this

/-- Whether a list starts with `'/'` is unaffected by what follows a fixed
prefix ending in `'_'`. -/
theorem slash_isPrefixOf_append (l s t : List Char) :
    ['/'].isPrefixOf (l ++ '_' :: s) = ['/'].isPrefixOf (l ++ '_' :: t) := by
  cases l with
  | nil => simp [List.isPrefixOf]
  | cons c cs => simp [List.isPrefixOf]

/-- Whether `base ++ "_" ++ s` is absolute does not depend on `s`. -/
theorem strHasPrefix_slash_append (base s t : String) :
    strHasPrefix (base ++ "_" ++ s) "/" = strHasPrefix (base ++ "_" ++ t) "/" := by
  simp only [strHasPrefix, String.data_append]
  rw [show base.data ++ ['_'] ++ s.data = base.data ++ '_' :: s.data by simp,
    show base.data ++ ['_'] ++ t.data = base.data ++ '_' :: t.data by simp,
    slash_isPrefixOf_append]

/-- Cancelling a common prefix and a common suffix. -/
theorem append_middle_cancel {C E M M' : List Char}
    (h : C ++ (M ++ E) = C ++ (M' ++ E)) : M = M' :=
  List.append_cancel_right (List.append_cancel_left h)

/-- Distinct counters give distinct collision candidate names (for any join
branch). -/
theorem candidateName_injective (dest base ext : String) :
    Function.Injective (fun k => candidateName dest base ext k) := by
  intro k j h
  simp only [candidateName, joinPath] at h
  rw [show base ++ "_" ++ Nat.repr k ++ ext = base ++ "_" ++ (Nat.repr k ++ ext) by
    simp [String.append_assoc]] at h
  rw [show base ++ "_" ++ Nat.repr j ++ ext = base ++ "_" ++ (Nat.repr j ++ ext) by
    simp [String.append_assoc]] at h
  rw [strHasPrefix_slash_append base (Nat.repr k ++ ext) (Nat.repr j ++ ext)] at h
  have key : ∀ {x y : String}, (x ++ (Nat.repr k ++ ext) = y ++ (Nat.repr j ++ ext)) →
      x = y → k = j := by
    intro x y hxy hxyeq
    subst hxyeq
    have hd := congrArg String.data hxy
    simp only [String.data_append] at hd
    have := append_middle_cancel hd
    exact toDigits_inj this
  split at h
  · -- absolute-name branch: both sides are the bare names
    have hd := congrArg String.data h
    simp only [String.data_append] at hd
    have : (Nat.repr k).data = (Nat.repr j).data := by
      have h1 : base.data ++ (("_" : String).data ++ ((Nat.repr k).data ++ ext.data)) =
          base.data ++ (("_" : String).data ++ ((Nat.repr j).data ++ ext.data)) := by
        simpa using hd
      have h2 := List.append_cancel_left h1
      have h3 := List.append_cancel_left h2
      exact List.append_cancel_right h3
    exact toDigits_inj this
  · split at h
    · exact key h rfl
    · split at h
      · have hd := congrArg String.data h
        simp only [String.data_append] at hd
        have h1 : dest.data ++ (base.data ++ (("_" : String).data ++ ((Nat.repr k).data ++ ext.data))) =
            dest.data ++ (base.data ++ (("_" : String).data ++ ((Nat.repr j).data ++ ext.data))) := by
          simpa using hd
        have h2 := List.append_cancel_left h1
        have h3 := List.append_cancel_left h2
        have h4 := List.append_cancel_left h3
        exact toDigits_inj (List.append_cancel_right h4)
      · have hd := congrArg String.data h
        simp only [String.data_append] at hd
        have h1 : dest.data ++ (("/" : String).data ++ (base.data ++ (("_" : String).data ++ ((Nat.repr k).data ++ ext.data)))) =
            dest.data ++ (("/" : String).data ++ (base.data ++ (("_" : String).data ++ ((Nat.repr j).data ++ ext.data)))) := by
          simpa using hd
        have h2 := List.append_cancel_left h1
        have h3 := List.append_cancel_left h2
        have h4 := List.append_cancel_left h3
        have h5 := List.append_cancel_left h4
        exact toDigits_inj (List.append_cancel_right h5)

/-- Pigeonhole: among the first `used.length + 1` candidate names, one is not
in `used`. -/
theorem exists_fresh_candidate (used : List String) (dest base ext : String) :
    ∃ j, j < used.length + 1 ∧ candidateName dest base ext (1 + j) ∉ used := by
  by_contra hcon
  push_neg at hcon
  have hinj : Set.InjOn (fun j => candidateName dest base ext (1 + j))
      ↑(Finset.range (used.length + 1)) := by
    intro a _ b _ hab
    have := candidateName_injective dest base ext hab
    omega
  have hsub : (Finset.range (used.length + 1)).image
      (fun j => candidateName dest base ext (1 + j)) ⊆ used.toFinset := by
    intro x hx
    simp only [Finset.mem_image, Finset.mem_range] at hx
    obtain ⟨j, hj, rfl⟩ := hx
    exact List.mem_toFinset.mpr (hcon j hj)
  have hcard := Finset.card_le_card hsub
  rw [Finset.card_image_of_injOn hinj, Finset.card_range] at hcard
  have := used.toFinset_card_le
  omega

/-- If some candidate within the fuel budget is free, the collision loop
returns a path that does not exist yet. -/
theorem resolveLoop_not_exists (fs : FileSys) (dest base ext : String) :
    ∀ (fuel counter : ℕ) (cur : String),
      (existsPath fs cur = false ∨
        ∃ j, j < fuel ∧ existsPath fs (candidateName dest base ext (counter + j)) = false) →
      existsPath fs (resolveLoop fs dest base ext fuel counter cur) = false := by
  intro fuel
  induction fuel with
  | zero =>
    intro counter cur h
    rcases h with h | ⟨j, hj, _⟩
    · simpa [resolveLoop] using h
    · omega
  | succ f ih =>
    intro counter cur h
    simp only [resolveLoop]
    by_cases hcur : existsPath fs cur = true
    · rw [if_pos hcur]
      rcases h with h | ⟨j, hj, hfree⟩
      · rw [hcur] at h
        cases h
      · cases j with
        | zero =>
          apply ih
          left
          simpa using hfree
        | succ j' =>
          apply ih
          right
          refine ⟨j', by omega, ?_⟩
          rw [show counter + 1 + j' = counter + (j' + 1) by omega]
          exact hfree
    · rw [if_neg hcur]
      simpa using hcur

/-- The destination path chosen for a copied file never exists beforehand:
the call-site fuel is always sufficient. -/
theorem resolveDestPath_not_exists (fs : FileSys) (dest name : String) :
    existsPath fs (resolveDestPath fs dest name) = false := by
  unfold resolveDestPath
  apply resolveLoop_not_exists
  right
  obtain ⟨j, hj, hfree⟩ := exists_fresh_candidate (allPaths fs) dest
    (splitExtName name).1 (splitExtName name).2
  exact ⟨j, hj, by simp [existsPath, hfree]⟩

/-- Each `copy_files` iteration leaves the directories unchanged and either
leaves the files unchanged or appends one entry at a previously non-existing
path. -/
theorem copyStep_fs (dest : String) (s : FileSys × FileOpResult) (p : String) :
    (copyStep dest s p).1.dirs = s.1.dirs ∧
    ((copyStep dest s p).1.files = s.1.files ∨
      ∃ q c, existsPath s.1 q = false ∧
        (copyStep dest s p).1.files = s.1.files ++ [(q, c)]) := by
  obtain ⟨fs, res⟩ := s
  simp only [copyStep]
  by_cases h1 : existsPath fs p = true
  · rw [if_pos h1]
    cases hr : readFile fs p with
    | some c =>
      by_cases h2 : fs.dirs.contains dest = true
      · simp only [h2, if_true]
        exact ⟨trivial, Or.inr ⟨_, c, resolveDestPath_not_exists fs dest (basenameStr p), rfl⟩⟩
      · have h2' : fs.dirs.contains dest = false := by simpa using h2
        simp only [h2', Bool.false_eq_true, if_false]
        exact ⟨trivial, Or.inl trivial⟩
    | none =>
      exact ⟨rfl, Or.inl rfl⟩
  · rw [if_neg h1]
    exact ⟨rfl, Or.inl rfl⟩

/-- Folding the copy step preserves the directory list, extends the file list
(existing entries untouched), and preserves distinctness of file paths. -/
theorem copy_foldl_files (dest : String) (paths : List String) :
    ∀ (s : FileSys × FileOpResult),
      (paths.foldl (copyStep dest) s).1.dirs = s.1.dirs ∧
      s.1.files <+: (paths.foldl (copyStep dest) s).1.files ∧
      ((s.1.files.map (fun e => e.1)).Nodup →
        ((paths.foldl (copyStep dest) s).1.files.map (fun e => e.1)).Nodup) := by
  induction paths with
  | nil => intro s; exact ⟨rfl, List.prefix_refl _, fun h => h⟩
  | cons p t ih =>
    intro s
    simp only [List.foldl_cons]
    obtain ⟨hd, hpre, hnd⟩ := ih (copyStep dest s p)
    obtain ⟨hd2, hfiles⟩ := copyStep_fs dest s p
    refine ⟨by rw [hd, hd2], ?_, ?_⟩
    · rcases hfiles with heq | ⟨q, c, hfree, heq⟩
      · rw [heq] at hpre
        exact hpre
      · rw [heq] at hpre
        exact (List.prefix_append _ _).trans hpre
    · intro hnodup
      apply hnd
      rcases hfiles with heq | ⟨q, c, hfree, heq⟩
      · rw [heq]
        exact hnodup
      · rw [heq]
        have hq : q ∉ s.1.files.map (fun e => e.1) := by
          intro hmem
          have hq' : existsPath s.1 q = true := by
            simp only [existsPath, allPaths, decide_eq_true_eq]
            exact List.mem_append_left _ hmem
          rw [hfree] at hq'
          cases hq'
        simp only [List.map_append, List.map_cons, List.map_nil]
        rw [List.nodup_append]
        exact ⟨hnodup, List.nodup_singleton _, by
          intro a ha hb
          simp only [List.mem_singleton] at hb
          exact hq (hb ▸ ha)⟩

/-- C9: `copy_files` creates the destination folder when absent, never
overwrites — pre-existing entries survive as a prefix and path distinctness
is preserved, every new entry landing on a fresh path — and copying two
distinct sources with the same base name yields two distinct destination
files (`x.jpg` and `x_1.jpg`). -/
theorem copy_files_spec (fs : FileSys) (paths : List String) (dest : String) :
    (existsPath fs dest = false → dest ∈ (copy_files fs paths dest).1.dirs) ∧
    (fs.files <+: (copy_files fs paths dest).1.files) ∧
    ((fs.files.map (fun e => e.1)).Nodup →
      ((copy_files fs paths dest).1.files.map (fun e => e.1)).Nodup) ∧
    ((copy_files sampleFs ["/a/x.jpg", "/b/x.jpg"] "/d").1.files =
        sampleFs.files ++ [("/d/x.jpg", 10), ("/d/x_1.jpg", 20)] ∧
      (copy_files sampleFs ["/a/x.jpg", "/b/x.jpg"] "/d").2.successful = 2) := by
  have hfold := copy_foldl_files dest paths
    (if existsPath fs dest then fs else makedirs fs dest, ⟨0, 0, []⟩)
  have hfs : ((if existsPath fs dest then fs else makedirs fs dest : FileSys),
      (⟨0, 0, []⟩ : FileOpResult)).1.files = fs.files := by
    split <;> rfl
  refine ⟨?_, ?_, ?_, by decide⟩
  · intro hne
    have hdirs := hfold.1
    simp only [copy_files]
    rw [hdirs]
    simp [hne, makedirs]
  · have := hfold.2.1
    rw [hfs] at this
    simpa [copy_files] using this
  · intro hnodup
    have := hfold.2.2
    rw [hfs] at this
    simpa [copy_files] using this hnodup

/-- C9 witness: the two-file collision scenario discharges both hypotheses. -/
theorem copy_files_spec_witness :
    "/d" ∈ (copy_files sampleFs ["/a/x.jpg", "/b/x.jpg"] "/d").1.dirs ∧
    (((copy_files sampleFs ["/a/x.jpg", "/b/x.jpg"] "/d").1.files.map
        (fun e => e.1))).Nodup :=
  ⟨(copy_files_spec sampleFs ["/a/x.jpg", "/b/x.jpg"] "/d").1 (by decide),
    (copy_files_spec sampleFs ["/a/x.jpg", "/b/x.jpg"] "/d").2.2.1 (by decide)⟩

/-- C10 witness: one existing and one missing source path reconcile to
`successful + failed = 2`. -/
theorem file_ops_counters_witness :
    (copy_files sampleFs ["/a/x.jpg", "/missing.jpg"] "/d").2.successful +
      (copy_files sampleFs ["/a/x.jpg", "/missing.jpg"] "/d").2.failed = 2 :=
  (file_ops_counters sampleFs emptyDb ["/a/x.jpg", "/missing.jpg"] "/d").1.1
